import Mathlib

/-!
Shallow embedding of the my-sudt CKB type script
(src/contracts/my-sudt/src/main.rs).

The script's only interaction with the outside world is through three host
read primitives (ckb-std syscalls): loading the current script (to obtain
its args), loading the lock-hash field of the transaction's input cells,
and loading the data payload of the cells in the script's own group
(inputs and outputs).  Following the spec's interface section, each read
primitive is modelled as an opaque host response: either a byte payload of
arbitrary length or one of the syscall error signals.  A loop that probes
increasing indices is modelled by a finite list of host responses, one per
index probed, with the convention that past the end of the list the host
answers IndexOutOfBound (a real host has finitely many cells and answers
IndexOutOfBound for every index beyond them).

Machine integers: the script accumulates token amounts in a Rust u128.
u128 addition is modelled as Nat addition followed by reduction modulo
2 ^ 128, the semantics of the + operator in a standard release build
(overflow checks disabled, two's-complement wrapping).  Bytes are Nat
values, understood to be below 256.

The molecule decoding of the Script args field (ckb_types, an external
dependency) is abstracted: a successful script load is represented
directly by the unpacked args bytes.  The panic on an unrecognized
syscall error code in the From conversion is modelled by a distinct
abort outcome, separate from the five typed error codes.
-/

set_option autoImplicit false

namespace MySudt

/-- Syscall error signals of ckb-std (SysError). -/
inductive SysError where
  | indexOutOfBound
  | itemMissing
  | lengthNotEnough (actual : Nat)
  | unknown (code : Nat)
  deriving DecidableEq

/-- One host response to a read primitive at one index: either the full
byte payload of the requested item, or a syscall error signal. -/
inductive ReadResult where
  | ok (data : List Nat)
  | err (e : SysError)
  deriving DecidableEq

/-- The script's error enum (main.rs lines 21-28), with the discriminants
assigned by repr(i8) starting at 1. -/
inductive Error where
  | indexOutOfBound
  | itemMissing
  | lengthNotEnough
  | encoding
  | amount
  deriving DecidableEq

/-- Discriminant of each error, as returned by main (err as i8). -/
def Error.code : Error → Int
  | .indexOutOfBound => 1
  | .itemMissing => 2
  | .lengthNotEnough => 3
  | .encoding => 4
  | .amount => 5

/-- The From SysError for Error conversion (main.rs lines 30-40).  The
Unknown arm panics instead of producing an Error; that arm is modelled as
none. -/
def Error.fromSysError : SysError → Option Error
  | .indexOutOfBound => some .indexOutOfBound
  | .itemMissing => some .itemMissing
  | .lengthNotEnough _ => some .lengthNotEnough
  | .unknown _ => none

/-- Outcome of running a fallible piece of the script: a value, a typed
error (rejection), or a process abort (the panic in the From conversion,
carrying the unrecognized syscall error code). -/
inductive Outcome (α : Type) where
  | ok (a : α)
  | err (e : Error)
  | abort (code : Nat)
  deriving DecidableEq

/-- Effect of the expression return Err(err.into()) for a SysError err:
the recognized signals become their typed error, an unknown signal
panics (aborts). -/
def liftSysError {α : Type} : SysError → Outcome α
  | .indexOutOfBound => .err .indexOutOfBound
  | .itemMissing => .err .itemMissing
  | .lengthNotEnough _ => .err .lengthNotEnough
  | .unknown c => .abort c

/-- check_owner_mode (main.rs lines 42-71): scan the lock-hash reads of
the transaction's inputs in index order.  IndexOutOfBound ends the scan
with false; any other error is lifted; a successful read whose length is
not 32 is an Encoding error; otherwise the loaded 32-byte hash is
compared against the whole args slice, and an exact match returns true
immediately. -/
def check_owner_mode (args : List Nat) : List ReadResult → Outcome Bool
  | [] => .ok false
  | read :: rest =>
    match read with
    | .err .indexOutOfBound => .ok false
    | .err e => liftSysError e
    | .ok data =>
      if data.length ≠ 32 then .err .encoding
      else if args = data then .ok true
      else check_owner_mode args rest

/-- u128::from_le_bytes on a 16-byte buffer: little-endian decoding,
byte 0 least significant. -/
def u128_from_le_bytes (bytes : List Nat) : Nat :=
  bytes.foldr (fun b acc => b + 256 * acc) 0

/-- Common loop body of collect_inputs_amount and collect_outputs_amount
(main.rs lines 73-96 and 98-121): scan the cell-data reads of a group
source in index order with accumulator acc.  IndexOutOfBound ends the
scan returning the accumulator; any other error is lifted; a successful
read whose length is not 16 (UDT_LEN) is an Encoding error; otherwise
the decoded u128 is added to the accumulator with u128 (wrapping)
addition. -/
def collect_amount : List ReadResult → Nat → Outcome Nat
  | [], acc => .ok acc
  | read :: rest, acc =>
    match read with
    | .err .indexOutOfBound => .ok acc
    | .err e => liftSysError e
    | .ok data =>
      if data.length ≠ 16 then .err .encoding
      else collect_amount rest ((acc + u128_from_le_bytes data) % 2 ^ 128)

/-- collect_inputs_amount (main.rs lines 73-96), over the GroupInput
cell-data read stream, starting from 0. -/
def collect_inputs_amount (reads : List ReadResult) : Outcome Nat :=
  collect_amount reads 0

/-- collect_outputs_amount (main.rs lines 98-121), over the GroupOutput
cell-data read stream, starting from 0. -/
def collect_outputs_amount (reads : List ReadResult) : Outcome Nat :=
  collect_amount reads 0

/-- The host-provided environment of one invocation: the script load
result (on success, the unpacked args bytes), and the three read streams
consumed by the three loops. -/
structure Host where
  scriptArgs : ReadResult
  lockHashes : List ReadResult
  groupInputData : List ReadResult
  groupOutputData : List ReadResult

/-- check (main.rs lines 123-148): load the script args, try owner mode
(success short-circuits), otherwise aggregate group input and output
amounts and require inputs_amount >= outputs_amount. -/
def check (h : Host) : Outcome Unit :=
  match h.scriptArgs with
  | .err e => liftSysError e
  | .ok args =>
    match check_owner_mode args h.lockHashes with
    | .err e => .err e
    | .abort c => .abort c
    | .ok true => .ok ()
    | .ok false =>
      match collect_inputs_amount h.groupInputData with
      | .err e => .err e
      | .abort c => .abort c
      | .ok inputs_amount =>
        match collect_outputs_amount h.groupOutputData with
        | .err e => .err e
        | .abort c => .abort c
        | .ok outputs_amount =>
          if inputs_amount < outputs_amount then .err .amount
          else .ok ()

/-- main (main.rs lines 150-156): exit status 0 on Ok, the error
discriminant on Err.  A panic never returns a status; that is the none
case. -/
def main (h : Host) : Option Int :=
  match check h with
  | .ok _ => some 0
  | .err e => some (Error.code e)
  | .abort _ => none

/-- A lock-hash read that a reaching owner-mode scan steps over: a
successful 32-byte hash different from the args. -/
def isNonMatchingLock (args : List Nat) : ReadResult → Bool
  | .ok d => d.length == 32 && d != args
  | .err _ => false

/-- A well-formed token payload read: success with exactly 16 bytes. -/
def isWfPayload : ReadResult → Bool
  | .ok d => d.length == 16
  | .err _ => false

/-- Mathematical (unbounded) sum of the decoded payloads of the
successful reads in a stream. -/
def sumDecode : List ReadResult → Nat
  | [] => 0
  | .ok d :: rest => u128_from_le_bytes d + sumDecode rest
  | .err _ :: rest => sumDecode rest

/-! Helper equations and loop lemmas. -/

@[simp]
theorem com_nil (args : List Nat) : check_owner_mode args [] = .ok false := rfl

@[simp]
theorem com_cons_oob (args : List Nat) (rest : List ReadResult) :
    check_owner_mode args (.err .indexOutOfBound :: rest) = .ok false := rfl

@[simp]
theorem com_cons_missing (args : List Nat) (rest : List ReadResult) :
    check_owner_mode args (.err .itemMissing :: rest) = .err .itemMissing := rfl

@[simp]
theorem com_cons_lne (args : List Nat) (rest : List ReadResult) (n : Nat) :
    check_owner_mode args (.err (.lengthNotEnough n) :: rest) = .err .lengthNotEnough := rfl

@[simp]
theorem com_cons_unknown (args : List Nat) (rest : List ReadResult) (c : Nat) :
    check_owner_mode args (.err (.unknown c) :: rest) = .abort c := rfl

theorem com_cons_ok (args d : List Nat) (rest : List ReadResult) :
    check_owner_mode args (.ok d :: rest) =
      if d.length ≠ 32 then .err .encoding
      else if args = d then .ok true
      else check_owner_mode args rest := rfl

theorem com_skip (args d : List Nat) (rest : List ReadResult)
    (h32 : d.length = 32) (hne : d ≠ args) :
    check_owner_mode args (.ok d :: rest) = check_owner_mode args rest := by
  have hne2 : ¬ args = d := fun h => hne h.symm
  rw [com_cons_ok, if_neg (by simp [h32]), if_neg hne2]

/-- Stepping the owner-mode scan over a block of successful, non-matching
32-byte lock hashes leaves the verdict of the remaining stream. -/
theorem com_append (args : List Nat) (pre rest : List ReadResult)
    (h : ∀ r ∈ pre, isNonMatchingLock args r = true) :
    check_owner_mode args (pre ++ rest) = check_owner_mode args rest := by
  induction pre with
  | nil => rfl
  | cons read p ih =>
    have hr := h read (List.mem_cons_self read p)
    cases read with
    | err e => simp [isNonMatchingLock] at hr
    | ok d =>
      simp only [isNonMatchingLock, Bool.and_eq_true, beq_iff_eq, bne_iff_ne] at hr
      rw [List.cons_append, com_skip args d (p ++ rest) hr.1 hr.2]
      exact ih (fun x hx => h x (List.mem_cons_of_mem _ hx))

/-- If the owner-mode scan returns true, the args slice equals a 32-byte
buffer, so it has length 32. -/
theorem com_true_args_len (args : List Nat) (reads : List ReadResult) :
    check_owner_mode args reads = .ok true → args.length = 32 := by
  induction reads with
  | nil => intro h; simp at h
  | cons read rest ih =>
    intro h
    cases read with
    | err e => cases e <;> simp [liftSysError] at h
    | ok d =>
      rw [com_cons_ok] at h
      by_cases h32 : d.length ≠ 32
      · rw [if_pos h32] at h; simp at h
      · rw [if_neg h32] at h
        push_neg at h32
        by_cases heq : args = d
        · rw [heq]; exact h32
        · rw [if_neg heq] at h; exact ih h

@[simp]
theorem collect_nil (acc : Nat) : collect_amount [] acc = .ok acc := rfl

@[simp]
theorem collect_cons_oob (rest : List ReadResult) (acc : Nat) :
    collect_amount (.err .indexOutOfBound :: rest) acc = .ok acc := rfl

@[simp]
theorem collect_cons_missing (rest : List ReadResult) (acc : Nat) :
    collect_amount (.err .itemMissing :: rest) acc = .err .itemMissing := rfl

@[simp]
theorem collect_cons_lne (rest : List ReadResult) (acc n : Nat) :
    collect_amount (.err (.lengthNotEnough n) :: rest) acc = .err .lengthNotEnough := rfl

@[simp]
theorem collect_cons_unknown (rest : List ReadResult) (acc c : Nat) :
    collect_amount (.err (.unknown c) :: rest) acc = .abort c := rfl

theorem collect_cons_ok (d : List Nat) (rest : List ReadResult) (acc : Nat) :
    collect_amount (.ok d :: rest) acc =
      if d.length ≠ 16 then .err .encoding
      else collect_amount rest ((acc + u128_from_le_bytes d) % 2 ^ 128) := rfl

/-- Stepping an aggregator over a block of well-formed 16-byte payloads
folds their decoded values into the accumulator with wrapping addition. -/
theorem collect_append (p : List ReadResult) :
    ∀ (rest : List ReadResult) (acc : Nat), acc < 2 ^ 128 →
      (∀ r ∈ p, isWfPayload r = true) →
      collect_amount (p ++ rest) acc =
        collect_amount rest ((acc + sumDecode p) % 2 ^ 128) := by
  induction p with
  | nil =>
    intro rest acc hacc _
    have hmod : (acc + sumDecode ([] : List ReadResult)) % 2 ^ 128 = acc := by
      simp only [sumDecode, Nat.add_zero]
      exact Nat.mod_eq_of_lt hacc
    rw [List.nil_append, hmod]
  | cons read p ih =>
    intro rest acc hacc hp
    cases read with
    | err e =>
      have hr := hp _ (List.mem_cons_self _ _)
      simp [isWfPayload] at hr
    | ok d =>
      have hr := hp _ (List.mem_cons_self _ _)
      have h16 : d.length = 16 := by simpa [isWfPayload] using hr
      rw [List.cons_append, collect_cons_ok, if_neg (by simp [h16])]
      rw [ih rest ((acc + u128_from_le_bytes d) % 2 ^ 128)
        (Nat.mod_lt _ (by positivity))
        (fun x hx => hp x (List.mem_cons_of_mem _ hx))]
      congr 1
      simp only [sumDecode]
      rw [Nat.mod_add_mod, Nat.add_assoc]

/-- An aggregator run over an entirely well-formed stream succeeds with
the wrapped sum of the decoded payloads. -/
theorem collect_wf (p : List ReadResult) (hp : ∀ r ∈ p, isWfPayload r = true) :
    collect_amount p 0 = .ok (sumDecode p % 2 ^ 128) := by
  have h := collect_append p [] 0 (by positivity) hp
  simpa using h

/-! Concrete byte vectors for witnesses and counterexamples. -/

/-- A 32-byte owner identity of all zeros. -/
def args0 : List Nat := List.replicate 32 0

/-- The 32-byte owner identity 0xAA repeated (spec scenario A). -/
def argsAA : List Nat := List.replicate 32 170

/-- A 32-byte lock hash different from both identities above. -/
def lock1 : List Nat := List.replicate 32 1

/-- 16-byte little-endian payload of the amount 1. -/
def bytes1 : List Nat := 1 :: List.replicate 15 0

/-- 16-byte little-endian payload of the amount 2. -/
def bytes2 : List Nat := 2 :: List.replicate 15 0

/-- 16-byte little-endian payload of the amount 2 ^ 127. -/
def bytes127 : List Nat := List.replicate 15 0 ++ [128]

/-! Claim theorems. -/

/-- Claim C2: if some input cell's lock hash equals the script args
byte-for-byte (and the scan reaches it over successful non-matching
32-byte reads), the owner scan returns true at that input and the
verdict is Accept (status 0), for every continuation of the lock-hash
stream after the match and for arbitrary group input and output streams:
later inputs are never examined and neither aggregator's result can
influence the verdict. -/
theorem c2_owner_short_circuit (args : List Nat)
    (pre suffix gin gout : List ReadResult)
    (h32 : args.length = 32)
    (hpre : ∀ r ∈ pre, isNonMatchingLock args r = true) :
    check_owner_mode args (pre ++ .ok args :: suffix) = .ok true ∧
    main ⟨.ok args, pre ++ .ok args :: suffix, gin, gout⟩ = some 0 := by
  have hcom : check_owner_mode args (pre ++ .ok args :: suffix) = .ok true := by
    rw [com_append args pre _ hpre, com_cons_ok,
      if_neg (by simp [h32]), if_pos rfl]
  exact ⟨hcom, by simp [main, check, hcom]⟩

/-- Claim C2 witness: owner identity 0xAA..AA matched by the second
input; the stream after the match holds an unrecognized-signal read and
the group outputs exceed the group inputs, yet the verdict is Accept. -/
theorem c2_owner_short_circuit_witness :
    main ⟨.ok argsAA, [.ok lock1, .ok argsAA, .err (.unknown 99)],
      [.ok bytes1], [.ok bytes127]⟩ = some 0 :=
  (c2_owner_short_circuit argsAA [.ok lock1] [.err (.unknown 99)]
    [.ok bytes1] [.ok bytes127] (by decide) (by decide)).2

/-- Claim C6: with a script argument shorter than 32 bytes, the owner
scan can never return true: every comparison against a loaded 32-byte
hash is length-mismatched, hence non-matching.  (In the source the
comparison is a safe Rust slice equality, which never reads out of
bounds of the argument buffer.) -/
theorem c6_short_args_never_owner (args : List Nat) (reads : List ReadResult)
    (h : args.length < 32) :
    check_owner_mode args reads ≠ .ok true :=
  fun hc => absurd (com_true_args_len args reads hc) (by omega)

/-- Claim C6 witness: the empty argument never matches, even against a
32-byte hash equal to a zero hash. -/
theorem c6_short_args_never_owner_witness :
    check_owner_mode [] [.ok args0] ≠ .ok true :=
  c6_short_args_never_owner [] [.ok args0] (by decide)

/-- Claim C9: the owner scan can only return true when the script
argument is exactly 32 bytes long (shorter or longer arguments never
compare equal to a 32-byte buffer). -/
theorem c9_owner_requires_len32 (args : List Nat) (reads : List ReadResult)
    (h : check_owner_mode args reads = .ok true) :
    args.length = 32 :=
  com_true_args_len args reads h

/-- Claim C9 witness: a 32-byte argument that does match. -/
theorem c9_owner_requires_len32_witness : args0.length = 32 :=
  c9_owner_requires_len32 args0 [.ok args0] (by decide)

/-- Claim C10: a successful lock-hash read whose length differs from 32
in either direction, reached by the owner scan, yields the Encoding
error (status 4); the comparison with the args is never performed, so the
outcome does not depend on the read bytes' relation to the args nor on
anything after that read. -/
theorem c10_lock_length_encoding (args d : List Nat)
    (pre rest gin gout : List ReadResult)
    (hpre : ∀ r ∈ pre, isNonMatchingLock args r = true)
    (hd : d.length ≠ 32) :
    check_owner_mode args (pre ++ .ok d :: rest) = .err .encoding ∧
    main ⟨.ok args, pre ++ .ok d :: rest, gin, gout⟩ = some 4 := by
  have hcom : check_owner_mode args (pre ++ .ok d :: rest) = .err .encoding := by
    rw [com_append args pre _ hpre, com_cons_ok, if_pos hd]
  exact ⟨hcom, by simp [main, check, hcom, Error.code]⟩

/-- Claim C10 witness: both directions.  A 33-byte read that extends
the 32-byte argument (so a truncating comparison would have matched)
and a 10-byte read both reject with status 4. -/
theorem c10_lock_length_encoding_witness :
    (check_owner_mode args0 [.ok (List.replicate 33 0)] = .err .encoding ∧
      main ⟨.ok args0, [.ok (List.replicate 33 0)], [], []⟩ = some 4) ∧
    (check_owner_mode args0 [.ok (List.replicate 10 0)] = .err .encoding ∧
      main ⟨.ok args0, [.ok (List.replicate 10 0)], [], []⟩ = some 4) :=
  ⟨c10_lock_length_encoding args0 (List.replicate 33 0) [] [] [] []
      (by decide) (by decide),
    c10_lock_length_encoding args0 (List.replicate 10 0) [] [] [] []
      (by decide) (by decide)⟩

/-- Host with no transaction inputs (so no lock hash equals the args),
two group inputs of amount 2 ^ 127 each, and one group output of
amount 1. -/
def c1Host : Host :=
  ⟨.ok args0, [], [.ok bytes127, .ok bytes127], [.ok bytes1]⟩

/-- Claim C1 counterexample: with no owner match, group-input amounts
2 ^ 127 and 2 ^ 127 and group-output amount 1, the mathematical input
sum 2 ^ 128 meets the output sum 1, yet the verifier does not accept:
the u128 accumulator wraps to 0 and the verdict is status 5 (Amount). -/
theorem c1_counterexample :
    c1Host.lockHashes = [] ∧
    sumDecode c1Host.groupInputData = 2 ^ 127 + 2 ^ 127 ∧
    sumDecode c1Host.groupOutputData = 1 ∧
    1 ≤ 2 ^ 127 + 2 ^ 127 ∧
    main c1Host = some 5 ∧
    main c1Host ≠ some 0 := by decide

/-- Claim C1 as amended: for every transaction whose owner scan
completes with false, whose group payloads are all well-formed 16-byte
reads, and whose two mathematical amount sums are below 2 ^ 128 (the
spec's documented total-supply precondition, under which the u128
accumulators do not wrap), the verdict is Accept (status 0) exactly when
the input sum is at least the output sum, and status 5 (Amount) exactly
otherwise.  With zero group-input and zero group-output cells both sums
are zero and the verdict is Accept. -/
theorem c1_no_owner_verdict (args : List Nat) (lh gin gout : List ReadResult)
    (ho : check_owner_mode args lh = .ok false)
    (hgin : ∀ r ∈ gin, isWfPayload r = true)
    (hgout : ∀ r ∈ gout, isWfPayload r = true)
    (hbin : sumDecode gin < 2 ^ 128)
    (hbout : sumDecode gout < 2 ^ 128) :
    (main ⟨.ok args, lh, gin, gout⟩ = some 0 ↔ sumDecode gout ≤ sumDecode gin) ∧
    (main ⟨.ok args, lh, gin, gout⟩ = some 5 ↔ sumDecode gin < sumDecode gout) := by
  have hin : collect_inputs_amount gin = .ok (sumDecode gin) := by
    have h := collect_wf gin hgin
    rwa [Nat.mod_eq_of_lt hbin] at h
  have hout : collect_outputs_amount gout = .ok (sumDecode gout) := by
    have h := collect_wf gout hgout
    rwa [Nat.mod_eq_of_lt hbout] at h
  by_cases hlt : sumDecode gin < sumDecode gout
  · have hm : main ⟨.ok args, lh, gin, gout⟩ = some 5 := by
      simp [main, check, ho, hin, hout, hlt, Error.code]
    rw [hm]
    constructor
    · exact ⟨fun hc => absurd hc (by decide), fun hle => absurd hlt (by omega)⟩
    · exact ⟨fun _ => hlt, fun _ => rfl⟩
  · have hm : main ⟨.ok args, lh, gin, gout⟩ = some 0 := by
      simp [main, check, ho, hin, hout, hlt]
    rw [hm]
    constructor
    · exact ⟨fun _ => Nat.le_of_not_lt hlt, fun _ => rfl⟩
    · exact ⟨fun hc => absurd hc (by decide), fun h5 => absurd h5 hlt⟩

/-- Claim C1 witness: one non-matching input lock hash, group input of
amount 2 against group output of amount 1 — accepted with status 0. -/
theorem c1_no_owner_verdict_witness :
    main ⟨.ok args0, [.ok lock1], [.ok bytes2], [.ok bytes1]⟩ = some 0 :=
  (c1_no_owner_verdict args0 [.ok lock1] [.ok bytes2] [.ok bytes1]
    (by decide) (by decide) (by decide) (by decide) (by decide)).1.mpr
    (by decide)

/-- Claim C3 counterexample: on the well-formed group-input payloads
2 ^ 127 and 2 ^ 127 the aggregator does not return the exact
mathematical sum 2 ^ 128: the u128 accumulation wraps and it returns 0.
So the accumulation is not unbounded-width. -/
theorem c3_counterexample :
    collect_inputs_amount [.ok bytes127, .ok bytes127] ≠
      .ok (u128_from_le_bytes bytes127 + u128_from_le_bytes bytes127) ∧
    u128_from_le_bytes bytes127 + u128_from_le_bytes bytes127 = 2 ^ 128 ∧
    collect_inputs_amount [.ok bytes127, .ok bytes127] = .ok 0 := by decide

/-- Claim C3 as amended: on every sequence of well-formed 16-byte
payloads each aggregator returns the sum modulo 2 ^ 128 of the decoded
little-endian values (u128 wrapping accumulation), which equals the
exact mathematical sum whenever that sum is below 2 ^ 128. -/
theorem c3_aggregate_sum (reads : List ReadResult)
    (h : ∀ r ∈ reads, isWfPayload r = true) :
    collect_inputs_amount reads = .ok (sumDecode reads % 2 ^ 128) ∧
    collect_outputs_amount reads = .ok (sumDecode reads % 2 ^ 128) ∧
    (sumDecode reads < 2 ^ 128 →
      collect_inputs_amount reads = .ok (sumDecode reads) ∧
      collect_outputs_amount reads = .ok (sumDecode reads)) := by
  have hw : collect_amount reads 0 = .ok (sumDecode reads % 2 ^ 128) :=
    collect_wf reads h
  refine ⟨hw, hw, fun hlt => ?_⟩
  rw [Nat.mod_eq_of_lt hlt] at hw
  exact ⟨hw, hw⟩

/-- Claim C3 witness: payloads of amounts 1 and 2 sum to the exact
value 3. -/
theorem c3_aggregate_sum_witness :
    collect_inputs_amount [.ok bytes1, .ok bytes2] =
      .ok (sumDecode [.ok bytes1, .ok bytes2]) :=
  ((c3_aggregate_sum [.ok bytes1, .ok bytes2] (by decide)).2.2 (by decide)).1

/-- Claim C4: without an owner match, a group-input or group-output
payload of length other than 16 bytes that the aggregation scan reaches
(all payloads before it well-formed, and for the output scan the whole
input stream well-formed) rejects the transaction with status 4
(Encoding); no sum is produced from the malformed payload. -/
theorem c4_malformed_payload (args d : List Nat)
    (lh gin gout pre rest : List ReadResult)
    (ho : check_owner_mode args lh = .ok false)
    (hd : d.length ≠ 16)
    (hreach :
      (gin = pre ++ .ok d :: rest ∧ ∀ r ∈ pre, isWfPayload r = true) ∨
      ((∀ r ∈ gin, isWfPayload r = true) ∧
        gout = pre ++ .ok d :: rest ∧ ∀ r ∈ pre, isWfPayload r = true)) :
    main ⟨.ok args, lh, gin, gout⟩ = some 4 := by
  have hmal : collect_amount (pre ++ .ok d :: rest) 0 = .err .encoding := by
    rw [collect_append pre (.ok d :: rest) 0 (by positivity)]
    · rw [collect_cons_ok, if_pos hd]
    · intro r hr
      rcases hreach with ⟨_, hp⟩ | ⟨_, _, hp⟩ <;> exact hp r hr
  rcases hreach with ⟨hg, _⟩ | ⟨hgin, hg, _⟩
  · have hin : collect_inputs_amount gin = .err .encoding := by
      rw [hg]; exact hmal
    simp [main, check, ho, hin, Error.code]
  · have hin : collect_inputs_amount gin = .ok (sumDecode gin % 2 ^ 128) :=
      collect_wf gin hgin
    have hout : collect_outputs_amount gout = .err .encoding := by
      rw [hg]; exact hmal
    simp [main, check, ho, hin, hout, Error.code]

/-- Claim C4 witness: spec scenario D — a 10-byte group-input payload
after a well-formed one rejects with status 4. -/
theorem c4_malformed_payload_witness :
    main ⟨.ok args0, [], [.ok bytes1, .ok (List.replicate 10 0)], []⟩ = some 4 :=
  c4_malformed_payload args0 (List.replicate 10 0) []
    [.ok bytes1, .ok (List.replicate 10 0)] [] [.ok bytes1] []
    (by decide) (by decide) (.inl ⟨by decide, by decide⟩)

/-- Claim C5: in all three loops an IndexOutOfBound read signal is
normal exhaustion — the owner scan returns false (both at an explicit
IndexOutOfBound response and at the end of the response stream) and each
aggregator returns its accumulated sum (zero for an empty list) — while
the recognized failures ItemMissing and LengthNotEnough propagate as
their corresponding error kinds from every loop. -/
theorem c5_oob_is_exhaustion (args : List Nat)
    (pre rest p : List ReadResult) (n : Nat)
    (hpre : ∀ r ∈ pre, isNonMatchingLock args r = true)
    (hp : ∀ r ∈ p, isWfPayload r = true) :
    check_owner_mode args (pre ++ .err .indexOutOfBound :: rest) = .ok false ∧
    check_owner_mode args pre = .ok false ∧
    check_owner_mode args (pre ++ .err .itemMissing :: rest) = .err .itemMissing ∧
    check_owner_mode args (pre ++ .err (.lengthNotEnough n) :: rest) =
      .err .lengthNotEnough ∧
    collect_inputs_amount (p ++ .err .indexOutOfBound :: rest) =
      .ok (sumDecode p % 2 ^ 128) ∧
    collect_inputs_amount p = .ok (sumDecode p % 2 ^ 128) ∧
    collect_inputs_amount [] = .ok 0 ∧
    collect_inputs_amount (p ++ .err .itemMissing :: rest) = .err .itemMissing ∧
    collect_inputs_amount (p ++ .err (.lengthNotEnough n) :: rest) =
      .err .lengthNotEnough ∧
    collect_outputs_amount (p ++ .err .indexOutOfBound :: rest) =
      .ok (sumDecode p % 2 ^ 128) ∧
    collect_outputs_amount [] = .ok 0 ∧
    collect_outputs_amount (p ++ .err .itemMissing :: rest) = .err .itemMissing ∧
    collect_outputs_amount (p ++ .err (.lengthNotEnough n) :: rest) =
      .err .lengthNotEnough := by
  have hcagg : ∀ rest2 : List ReadResult,
      collect_amount (p ++ rest2) 0 =
        collect_amount rest2 (sumDecode p % 2 ^ 128) := by
    intro rest2
    rw [collect_append p rest2 0 (by positivity) hp, Nat.zero_add]
  have hcom : ∀ rest2 : List ReadResult,
      check_owner_mode args (pre ++ rest2) = check_owner_mode args rest2 :=
    fun rest2 => com_append args pre rest2 hpre
  refine ⟨?_, ?_, ?_, ?_, ?_, ?_, rfl, ?_, ?_, ?_, rfl, ?_, ?_⟩
  · rw [hcom]; rfl
  · have h := hcom []
    rwa [List.append_nil] at h
  · rw [hcom]; rfl
  · rw [hcom]; rfl
  · rw [collect_inputs_amount, hcagg]; rfl
  · have h := hcagg []
    rw [List.append_nil] at h
    rw [collect_inputs_amount, h]; rfl
  · rw [collect_inputs_amount, hcagg]; rfl
  · rw [collect_inputs_amount, hcagg]; rfl
  · rw [collect_outputs_amount, hcagg]; rfl
  · rw [collect_outputs_amount, hcagg]; rfl
  · rw [collect_outputs_amount, hcagg]; rfl

/-- Claim C5 witness: with one non-matching lock hash and one
well-formed payload of amount 1, an explicit IndexOutOfBound response
ends the owner scan with false. -/
theorem c5_oob_is_exhaustion_witness :
    check_owner_mode args0
      ([.ok lock1] ++ .err .indexOutOfBound :: [.err (.unknown 3)]) = .ok false :=
  (c5_oob_is_exhaustion args0 [.ok lock1] [.err (.unknown 3)] [.ok bytes1] 9
    (by decide) (by decide)).1

/-- Claim C7: an unrecognized host signal (SysError Unknown) has no
Error counterpart in the From conversion (it panics), and whenever one
of the three loops reaches such a signal the program aborts: main
produces no status at all, in particular none of the codes 1-5. -/
theorem c7_unknown_signal_aborts (c : Nat) (args : List Nat)
    (lh gin gout pre rest : List ReadResult)
    (hreach :
      (lh = pre ++ .err (.unknown c) :: rest ∧
        ∀ r ∈ pre, isNonMatchingLock args r = true) ∨
      (check_owner_mode args lh = .ok false ∧
        gin = pre ++ .err (.unknown c) :: rest ∧
        ∀ r ∈ pre, isWfPayload r = true) ∨
      (check_owner_mode args lh = .ok false ∧
        (∀ r ∈ gin, isWfPayload r = true) ∧
        gout = pre ++ .err (.unknown c) :: rest ∧
        ∀ r ∈ pre, isWfPayload r = true)) :
    main ⟨.ok args, lh, gin, gout⟩ = none ∧
    Error.fromSysError (.unknown c) = none := by
  refine ⟨?_, rfl⟩
  rcases hreach with ⟨hg, hpre⟩ | ⟨ho, hg, hp⟩ | ⟨ho, hgin, hg, hp⟩
  · have hcom : check_owner_mode args lh = .abort c := by
      rw [hg, com_append args pre _ hpre]; rfl
    simp [main, check, hcom]
  · have hin : collect_inputs_amount gin = .abort c := by
      rw [hg, collect_inputs_amount,
        collect_append pre _ 0 (by positivity) hp]
      rfl
    simp [main, check, ho, hin]
  · have hin : collect_inputs_amount gin = .ok (sumDecode gin % 2 ^ 128) :=
      collect_wf gin hgin
    have hout : collect_outputs_amount gout = .abort c := by
      rw [hg, collect_outputs_amount,
        collect_append pre _ 0 (by positivity) hp]
      rfl
    simp [main, check, ho, hin, hout]

/-- Claim C7 witness: an unrecognized signal with code 42 at the first
input aborts the run. -/
theorem c7_unknown_signal_aborts_witness :
    main ⟨.ok args0, [.err (.unknown 42)], [], []⟩ = none ∧
    Error.fromSysError (.unknown 42) = none :=
  c7_unknown_signal_aborts 42 args0 [.err (.unknown 42)] [] [] [] []
    (.inl ⟨by decide, by decide⟩)

/-- Claim C8: main returns exactly the interface statuses — every
returned status is one of 0 to 5; acceptance returns 0; and a propagated
error kind returns its discriminant, with IndexOutOfBound mapped to 1,
ItemMissing to 2, LengthNotEnough to 3, Encoding to 4 and Amount to 5. -/
theorem c8_status_codes :
    (∀ (h : Host) (v : Int), main h = some v →
      v = 0 ∨ v = 1 ∨ v = 2 ∨ v = 3 ∨ v = 4 ∨ v = 5) ∧
    Error.code .indexOutOfBound = 1 ∧
    Error.code .itemMissing = 2 ∧
    Error.code .lengthNotEnough = 3 ∧
    Error.code .encoding = 4 ∧
    Error.code .amount = 5 ∧
    (∀ h : Host, check h = .ok () → main h = some 0) ∧
    (∀ (h : Host) (e : Error), check h = .err e →
      main h = some (Error.code e)) := by
  refine ⟨?_, rfl, rfl, rfl, rfl, rfl, ?_, ?_⟩
  · intro h v hv
    unfold main at hv
    cases hc : check h with
    | ok u =>
      rw [hc] at hv
      simp at hv
      exact Or.inl hv.symm
    | err e =>
      rw [hc] at hv
      cases e <;> simp [Error.code] at hv <;> omega
    | abort c =>
      rw [hc] at hv
      simp at hv
  · intro h hc
    simp [main, hc]
  · intro h e hc
    simp [main, hc]

/-- Claim C8 witness: the empty transaction is accepted with status 0,
which is among the interface statuses. -/
theorem c8_status_codes_witness :
    (0 : Int) = 0 ∨ (0 : Int) = 1 ∨ (0 : Int) = 2 ∨ (0 : Int) = 3 ∨
      (0 : Int) = 4 ∨ (0 : Int) = 5 :=
  c8_status_codes.1 ⟨.ok [], [], [], []⟩ 0 (by decide)

end MySudt
